import Mathlib

set_option maxRecDepth 100000

/-!
Shallow embedding of the configjs plugin-migration pipeline
(src/scripts/generate-builders-final.py, migrate-plugins.py,
migrate-plugins-advanced.py, generate-registry.py).

The Python scripts locate metadata with `re.search` over a handful of
fixed patterns, extract callback functions with a hand-written
balanced-brace scanner, synthesize `-builder.ts` artifact text by string
formatting, and assemble a registry file whose embedded TypeScript
validates plugins at load time.  Each of those pieces is translated here
as an executable function on `List Char` / `String`; the fixed regular
expressions are compiled by hand into deterministic scanners (every
quantifier in them is followed by a character the quantified class
excludes, so the greedy match never back-tracks).  Strings are handled
as `List Char` because the byte-position-based `String` primitives do
not reduce in the kernel.  All inputs considered are ASCII; Python's
`\s` and `str.upper` are modelled on the ASCII range.
-/

/-- Python `\s` (ASCII range): space, tab, newline, carriage return,
vertical tab, form feed. -/
def isPySpace (c : Char) : Bool :=
  c = ' ' || c = '\t' || c = '\n' || c = '\x0d' || c = '\x0b' || c = '\x0c'

/-- The character class `['\"]` used by the metadata patterns. -/
def isMetaQuote (c : Char) : Bool :=
  c = '\x27' || c = '\x22'

/-- Drop a literal pattern from the front of `l`, or fail. -/
def dropLit : List Char → List Char → Option (List Char)
  | [], l => some l
  | _ :: _, [] => none
  | p :: ps, c :: cs => if c = p then dropLit ps cs else none

/-- One step of `re.findall`'s quoted-token pattern: `([^'\"]+)['\"]`
starting right after an opening quote.  Returns the captured token and
the rest of the input after the closing quote. -/
def takeQuoted (l : List Char) : Option (List Char × List Char) :=
  let v := l.takeWhile fun c => !(isMetaQuote c)
  match l.dropWhile (fun c => !(isMetaQuote c)) with
  | [] => none
  | _ :: r => if v.isEmpty then none else some (v, r)

/-- `re.findall(r"['\"]([^'\"]+)['\"]", s)`: collect every quoted token
left to right, non-overlapping; a quote that does not open a full match
is skipped and the scan resumes at the next character.  The fuel is the
input length, which bounds the number of scan steps. -/
def findQuotedAux : Nat → List Char → List (List Char)
  | 0, _ => []
  | _ + 1, [] => []
  | fuel + 1, c :: rest =>
    if isMetaQuote c then
      match takeQuoted rest with
      | some (v, r) => v :: findQuotedAux fuel r
      | none => findQuotedAux fuel rest
    else findQuotedAux fuel rest

/-- All quoted tokens of a span (`re.findall` of the token pattern). -/
def findQuoted (l : List Char) : List (List Char) :=
  findQuotedAux l.length l

/-- Try the scalar-assignment pattern `key\s*['\"]([^'\"]+)['\"]` at the
start of `l` (the literal `key` already carries its trailing colon, as
in `re.search(r"name:\s*['\"]([^'\"]+)['\"]", content)`).  The capture
group is one-plus characters that are not quotes, and either quote
character closes the value. -/
def matchScalarAt (key : List Char) (l : List Char) : Option (List Char) :=
  match dropLit key l with
  | none => none
  | some r1 =>
    match r1.dropWhile isPySpace with
    | [] => none
    | q :: r2 =>
      if isMetaQuote q then
        let v := r2.takeWhile fun c => !(isMetaQuote c)
        match r2.dropWhile (fun c => !(isMetaQuote c)) with
        | [] => none
        | _ :: _ => if v.isEmpty then none else some v
      else none

/-- `re.search` for the scalar pattern: leftmost position at which the
pattern matches, scanning forward one character at a time. -/
def searchScalar (key : List Char) : List Char → Option (List Char)
  | [] => none
  | c :: rest =>
    match matchScalarAt key (c :: rest) with
    | some v => some v
    | none => searchScalar key rest

/-- Character class `[A-Z_]` of the category pattern. -/
def isCatChar (c : Char) : Bool :=
  ('A'.toNat ≤ c.toNat && c.toNat ≤ 'Z'.toNat) || c = '_'

/-- Try `category:\s*Category\.([A-Z_]+)` at the start of `l`. -/
def matchCategoryAt (l : List Char) : Option (List Char) :=
  match dropLit "category:".data l with
  | none => none
  | some r1 =>
    match dropLit "Category.".data (r1.dropWhile isPySpace) with
    | none => none
    | some r2 =>
      let v := r2.takeWhile isCatChar
      if v.isEmpty then none else some v

/-- `re.search` for the category pattern. -/
def searchCategory : List Char → Option (List Char)
  | [] => none
  | c :: rest =>
    match matchCategoryAt (c :: rest) with
    | some v => some v
    | none => searchCategory rest

/-- Try the list pattern `key\s*\[([^\]]*)\]` (when `allowEmpty`) or
`key\s*\[([^\]]+)\]` (otherwise — the `frameworks` pattern, which
requires at least one character inside the brackets) at the start of
`l`; returns the raw bracketed span. -/
def matchBracketAt (key : List Char) (allowEmpty : Bool) (l : List Char) :
    Option (List Char) :=
  match dropLit key l with
  | none => none
  | some r1 =>
    match r1.dropWhile isPySpace with
    | [] => none
    | c :: r2 =>
      if c = '[' then
        let v := r2.takeWhile fun d => !(d = ']')
        match r2.dropWhile (fun d => !(d = ']')) with
        | [] => none
        | _ :: _ => if !allowEmpty && v.isEmpty then none else some v
      else none

/-- `re.search` for a list pattern. -/
def searchBracket (key : List Char) (allowEmpty : Bool) :
    List Char → Option (List Char)
  | [] => none
  | c :: rest =>
    match matchBracketAt key allowEmpty (c :: rest) with
    | some v => some v
    | none => searchBracket key allowEmpty rest

/-- The metadata record built by `extract_plugin_metadata`
(migrate-plugins-advanced.py:68-135; the copy in
generate-builders-final.py:23-84 is identical except that it has no
`version` key, and the copy in migrate-plugins.py:23-90 is identical).
`none` / `[]` are the initial Python values `None` / `[]`. -/
structure Metadata where
  name : Option String
  displayName : Option String
  description : Option String
  category : Option String
  version : Option String
  frameworks : List String
  incompatibleWith : List String
  requires : List String
  recommends : List String
deriving Repr, DecidableEq

/-- One scalar field: `re.search(key + pattern)` leaving the field unset
on no match. -/
def scalarField (key : String) (content : List Char) : Option String :=
  (searchScalar key.data content).map String.mk

/-- One list field: locate the bracketed span, then collect its quoted
tokens; the field keeps its initial `[]` when the span pattern has no
match. -/
def listField (key : String) (allowEmpty : Bool) (content : List Char) :
    List String :=
  match searchBracket key.data allowEmpty content with
  | none => []
  | some span => (findQuoted span).map String.mk

/-- `extract_plugin_metadata` (migrate-plugins-advanced.py:68-135). -/
def extract_plugin_metadata (content : String) : Metadata :=
  { name := scalarField "name:" content.data
    displayName := scalarField "displayName:" content.data
    description := scalarField "description:" content.data
    category := (searchCategory content.data).map String.mk
    version := scalarField "version:" content.data
    frameworks := listField "frameworks:" false content.data
    incompatibleWith := listField "incompatibleWith:" true content.data
    requires := listField "requires:" true content.data
    recommends := listField "recommends:" true content.data }

/-- `\s+` : at least one whitespace character, consumed greedily. -/
def dropSpacesPlus (l : List Char) : Option (List Char) :=
  match l with
  | [] => none
  | c :: rest => if isPySpace c then some (rest.dropWhile isPySpace) else none

/-- Expect one specific character. -/
def expectChar (c : Char) (l : List Char) : Option (List Char) :=
  match l with
  | [] => none
  | d :: rest => if d = c then some rest else none

/-- The quote set `['"', "'", '`']` of `extract_function`'s scanner. -/
def isFuncQuote (c : Char) : Bool :=
  c = '\x22' || c = '\x27' || c = '\x60'

/-- The anchor pattern of `extract_function`
(migrate-plugins-advanced.py:18):
`async\s+{func_name}\s*\([^)]*\)\s*:\s*Promise<[^>]+>\s*\{`, tried at
the start of `l`. -/
def anchorMatch (fname : List Char) (l : List Char) : Bool :=
  (do
    let r1 ← dropLit "async".data l
    let r2 ← dropSpacesPlus r1
    let r3 ← dropLit fname r2
    let r4 ← expectChar '(' (r3.dropWhile isPySpace)
    let r5 ← expectChar ')' (r4.dropWhile fun c => !(c = ')'))
    let r6 ← expectChar ':' (r5.dropWhile isPySpace)
    let r7 ← dropLit "Promise<".data (r6.dropWhile isPySpace)
    let v := r7.takeWhile fun c => !(c = '>')
    if v.isEmpty then none else do
      let r8 ← expectChar '>' (r7.dropWhile fun c => !(c = '>'))
      let _ ← expectChar '\x7b' (r8.dropWhile isPySpace)
      some () : Option Unit).isSome

/-- `re.search` for the anchor: index of the leftmost match. -/
def searchAnchorIdx (fname : List Char) : List Char → Nat → Option Nat
  | [], _ => none
  | c :: rest, i =>
    if anchorMatch fname (c :: rest) then some i
    else searchAnchorIdx fname rest (i + 1)

/-- Index of the first occurrence of `c`, offset by `i`. -/
def findCharIdx (c : Char) : List Char → Nat → Option Nat
  | [], _ => none
  | d :: rest, i => if d = c then some i else findCharIdx c rest (i + 1)

/-- Python `content.find(c, start)` (absolute index, `none` for -1). -/
def pyFind (c : Char) (l : List Char) (start : Nat) : Option Nat :=
  (findCharIdx c (l.drop start) 0).map (· + start)

/-- The character-by-character loop of `extract_function`
(migrate-plugins-advanced.py:38-64).  Arguments mirror the Python
state: remaining input, `brace_count`, `in_string`, `escape`, and the
absolute position `pos`; the result is the absolute position of the
closing brace, or `none` when the input ends first. -/
def scanBody : List Char → Nat → Bool → Bool → Nat → Option Nat
  | [], _, _, _, _ => none
  | c :: rest, braceCount, inString, esc, pos =>
    if esc then scanBody rest braceCount inString false (pos + 1)
    else if c = '\\' then scanBody rest braceCount inString true (pos + 1)
    else if isFuncQuote c then scanBody rest braceCount (!inString) esc (pos + 1)
    else if !inString && c = '\x7b' then
      scanBody rest (braceCount + 1) inString esc (pos + 1)
    else if !inString && c = '\x7d' then
      if braceCount = 0 then some pos
      else scanBody rest (braceCount - 1) inString esc (pos + 1)
    else scanBody rest braceCount inString esc (pos + 1)

/-- `extract_function` (migrate-plugins-advanced.py:15-66): find the
anchor, find the first `{` at or after the anchor's start, scan to the
matching closer, and return `content[start:pos+1]` — the text from the
anchor's start through the closing brace. -/
def extract_function (content : String) (funcName : String) : Option String :=
  match searchAnchorIdx funcName.data content.data 0 with
  | none => none
  | some start =>
    match pyFind '\x7b' content.data start with
    | none => none
    | some bracePos =>
      match scanBody (content.data.drop (bracePos + 1)) 0 false false
          (bracePos + 1) with
      | none => none
      | some closePos =>
        some (String.mk ((content.data.drop start).take (closePos + 1 - start)))

/-- Python `str.replace`: replace every non-overlapping occurrence of
`pat`, scanning left to right.  The fuel is the input length, which
bounds the number of scan steps for the non-empty patterns used here. -/
def replaceAllAux (pat rep : List Char) : Nat → List Char → List Char
  | 0, l => l
  | _ + 1, [] => []
  | fuel + 1, c :: rest =>
    match dropLit pat (c :: rest) with
    | some r => rep ++ replaceAllAux pat rep fuel r
    | none => c :: replaceAllAux pat rep fuel rest

/-- Python `s.replace(pat, rep)` on `String`. -/
def pyReplace (s pat rep : String) : String :=
  String.mk (replaceAllAux pat.data rep.data s.data.length s.data)

/-- `name.replace('@', '').replace('/', '').replace('-', '') + "Plugin"`
(generate-builders-final.py:127; generate-registry.py:28 derives the
same identifier). -/
def plugin_var_name (name : String) : String :=
  pyReplace (pyReplace (pyReplace name "@" "") "/" "") "-" "" ++ "Plugin"

/-- `metadata['name'].replace('@', '').replace('/', '') + "Plugin"` —
the export identifier of migrate-plugins-advanced.py:239 and
migrate-plugins.py:173, which do not strip `-`. -/
def plugin_var_name_adv (name : String) : String :=
  pyReplace (pyReplace name "@" "") "/" "" ++ "Plugin"

/-- Python `f"{x}"` on a possibly-`None` value: `None` renders as the
text `None`. -/
def pyOptStr : Option String → String
  | none => "None"
  | some s => s

/-- `", ".join([f"'{item}'" for item in items])`. -/
def quotedJoin (items : List String) : String :=
  String.intercalate ", " (items.map fun it => "\x27" ++ it ++ "\x27")

/-- The conditional chain fragments (generate-builders-final.py:109-124):
empty when the list is empty (falsy), else `.meth(['a', 'b'])\n  `. -/
def chainSection (meth : String) (items : List String) : String :=
  match items with
  | [] => ""
  | _ :: _ => "." ++ meth ++ "([" ++ quotedJoin items ++ "])\n  "

/-- The f-string template of `generate_builder_code_simple`
(generate-builders-final.py:129-182), with each interpolation hole as a
parameter.  Braces, quotes and backticks of the generated TypeScript
are written as `\x7b`, `\x7d`, `\x27`, `\x22`, `\x60`. -/
def builderTemplate (name displayName description category frameworksCode
    incompatCode requiresCode recommendsCode pluginVarName : String) : String :=
  "import \x7b createPlugin \x7d from \x27../builder/plugin-builder.js\x27\nimport \x7b getVersion \x7d from \x27../versions.js\x27\nimport type \x7b ProjectContext, ConfigResult, InstallResult \x7d from \x27../../types/index.js\x27\nimport \x7b installPackages \x7d from \x27../../utils/package-manager.js\x27\nimport \x7b ConfigWriter \x7d from \x27../../core/config-writer.js\x27\nimport \x7b BackupManager \x7d from \x27../../core/backup-manager.js\x27\nimport \x7b Category \x7d from \x27../../types/index.js\x27\n\n/**\n * Plugin "
    ++ displayName
    ++ "\n *\n * "
    ++ description
    ++ "\n * Documentation officielle : https://www.npmjs.com/package/"
    ++ name
    ++ "\n */\nexport const "
    ++ pluginVarName
    ++ " = createPlugin()\n  .named(\x27"
    ++ name
    ++ "\x27, \x27"
    ++ displayName
    ++ "\x27, \x27"
    ++ description
    ++ "\x27)\n  .forFrameworks(["
    ++ frameworksCode
    ++ "])\n  .inCategory(\x27"
    ++ category
    ++ "\x27)\n  .withVersion(getVersion(\x27"
    ++ name
    ++ "\x27)!)\n  "
    ++ incompatCode
    ++ requiresCode
    ++ recommendsCode
    ++ ".withDetect((ctx) => \x7b\n    return ctx.dependencies[\x27"
    ++ name
    ++ "\x27] !== undefined\n  \x7d)\n  .withInstall(async (ctx) => \x7b\n    try \x7b\n      const version = getVersion(\x27"
    ++ name
    ++ "\x27)\n      const packages = [\x60$\x7b\x27"
    ++ name
    ++ "\x27\x7d\x27@$\x7bversion\x7d\x60]\n      await installPackages(packages, \x7b\n        dev: false,\n        packageManager: ctx.packageManager,\n        projectRoot: ctx.projectRoot,\n        exact: false,\n        silent: false,\n      \x7d)\n      return \x7b success: true \x7d\n    \x7d catch (error) \x7b\n      return \x7b success: false, message: String(error) \x7d\n    \x7d\n  \x7d)\n  .withConfigure(async (ctx) => \x7b\n    const backupManager = new BackupManager()\n    const writer = new ConfigWriter(backupManager)\n    const files: ConfigResult[\x27files\x27] = []\n    \n    try \x7b\n      // Configuration basique pour "
    ++ name
    ++ "\n      // À personnaliser selon les besoins spécifiques du plugin\n      \n      return \x7b files, success: true \x7d\n    \x7d catch (error) \x7b\n      return \x7b success: false, message: String(error) \x7d\n    \x7d\n  \x7d)\n  .build()\n"

/-- `generate_builder_code_simple` (generate-builders-final.py:96-184).
A `None` name makes the Python function raise `AttributeError` at the
`name.replace` call (line 127), modelled as `none`; every other field
renders through Python string formatting (`None` included). -/
def generate_builder_code_simple (m : Metadata) : Option String :=
  match m.name with
  | none => none
  | some name =>
    some (builderTemplate name (pyOptStr m.displayName) (pyOptStr m.description)
      (pyOptStr m.category) (quotedJoin m.frameworks)
      (chainSection "incompatibleWith" m.incompatibleWith)
      (chainSection "requires" m.requires)
      (chainSection "recommends" m.recommends)
      (plugin_var_name name))

/-- The per-artifact batch loop of `main` in generate-builders-final.py
(lines 217-237), over the discovered `(plugin_name, file content)`
pairs in iteration order: a `None` extracted name raises
`ValueError("Could not extract plugin name")`, the `except` branch
records `(plugin_name, str(e))` in `failed` and the loop continues;
otherwise the builder text is generated and written and `generated` is
incremented.  Result: `(generated, failed)`.  (File I/O, which is out
of scope, is the only other exception source in the loop body.) -/
def finalGenerate : List (String × String) → Nat × List (String × String)
  | [] => (0, [])
  | (pname, content) :: rest =>
    let r := finalGenerate rest
    match (extract_plugin_metadata content).name with
    | none => (r.1, (pname, "Could not extract plugin name") :: r.2)
    | some _ => (r.1 + 1, r.2)

/-- The `--generate` batch loop of `main` in migrate-plugins.py (lines
243-265).  The loop body has no `try`: when the extracted name is
`None`, `generate_builder_code` raises `AttributeError` at
`metadata['name'].replace('@', '')` (line 173) and the exception
propagates out of `main`, aborting the whole run with the remaining
artifacts unprocessed — modelled as `Except.error`.  Otherwise the
builder file is written and `generated` is incremented. -/
def migrateGenerate : List (String × String) → Except String Nat
  | [] => Except.ok 0
  | (_, content) :: rest =>
    match (extract_plugin_metadata content).name with
    | none =>
      Except.error
        "AttributeError: \x27NoneType\x27 object has no attribute \x27replace\x27"
    | some _ =>
      match migrateGenerate rest with
      | Except.ok n => Except.ok (n + 1)
      | Except.error e => Except.error e

/-- A JavaScript value as far as the registry validator inspects one:
`typeof v === 'function'` either holds or does not. -/
inductive JsVal where
  | func
  | nonFunc
deriving Repr, DecidableEq

/-- A registry entry as inspected by `validatePlugin` in the TypeScript
emitted by generate-registry.py (lines 150-213 of the generated text).
`none` models an absent (`undefined`) field; `frameworks = none` models
a value for which `Array.isArray` is false. -/
structure PluginEntry where
  name : Option String
  displayName : Option String
  description : Option String
  category : Option String
  frameworks : Option (List String)
  detect : Option JsVal
  install : Option JsVal
  configure : Option JsVal
deriving Repr, DecidableEq

/-- `validatePlugin` from the generated registry: the required-field
loop covers `name`, `displayName`, `description`, `category`,
`install`, `configure` (not `detect`, not `frameworks`); then the
category must be one of `Object.values(Category)` (the closed
enumeration, passed here as `categories`); then `frameworks` must be a
non-empty array; then `install` and `configure` must be functions. -/
def validatePlugin (categories : List String) (p : PluginEntry) : Bool :=
  p.name.isSome && p.displayName.isSome && p.description.isSome
    && p.category.isSome && p.install.isSome && p.configure.isSome
    && (match p.category with
        | some c => categories.contains c
        | none => false)
    && (match p.frameworks with
        | some (_ :: _) => true
        | _ => false)
    && p.install == some JsVal.func
    && p.configure == some JsVal.func

/-- `validateRegistry` from the generated registry (lines 221-242 of
the generated text): partition the entries in order into the valid ones
(the queryable set) and the diagnostics list of the invalid entries'
`name` fields. -/
def validateRegistry (categories : List String) :
    List PluginEntry → List PluginEntry × List (Option String)
  | [] => ([], [])
  | p :: rest =>
    let r := validateRegistry categories rest
    if validatePlugin categories p then (p :: r.1, r.2)
    else (r.1, p.name :: r.2)

/-- Python string `<`: lexicographic comparison by code point, the
ordering used by `sorted()` in generate-registry.py. -/
def lexLt : List Char → List Char → Bool
  | [], [] => false
  | [], _ :: _ => true
  | _ :: _, [] => false
  | a :: as, b :: bs =>
    if a.toNat < b.toNat then true
    else if b.toNat < a.toNat then false
    else lexLt as bs

/-- Python string `<=`. -/
def lexLe (a b : List Char) : Bool :=
  !(lexLt b a)

/-- The ordering on strings used by Python's `sorted` in
generate-registry.py. -/
def strLe (a b : String) : Prop :=
  lexLe a.data b.data = true

instance : DecidableRel strLe :=
  fun a b => inferInstanceAs (Decidable (lexLe a.data b.data = true))

/-- `sorted(PLUGINS_DIR.iterdir())` compares directory paths, which for
entries of one directory is their name's string order. -/
def dirLe (a b : String × List String) : Prop :=
  lexLe a.1.data b.1.data = true

instance : DecidableRel dirLe :=
  fun a b => inferInstanceAs (Decidable (lexLe a.1.data b.1.data = true))

/-- One discovered builder artifact (generate-registry.py:30-35). -/
structure RegPlugin where
  name : String
  category : String
  var : String
  path : String
deriving Repr, DecidableEq

/-- `plugin_file.stem` minus the `.ts` suffix, then
`.replace('-builder', '')` (generate-registry.py:24). -/
def pluginNameOfFile (fname : String) : String :=
  pyReplace (String.mk (fname.data.take (fname.data.length - 3))) "-builder" ""

/-- The body of the directory loop of `get_all_builder_plugins`
(generate-registry.py:18-35): skip the `builder` directory, take the
files matching `*-builder.ts` in sorted order, and record name,
category, variable and path per file.  (Directory entries are modelled
as `(name, files)` pairs; non-directory entries, which the code also
skips, are outside the model.) -/
def processDir (d : String × List String) : List RegPlugin :=
  if d.1 = "builder" then []
  else
    (List.insertionSort strLe
        (d.2.filter fun f => "-builder.ts".data.isSuffixOf f.data)).map fun f =>
      let pname := pluginNameOfFile f
      { name := pname, category := d.1, var := plugin_var_name pname,
        path := d.1 ++ "/" ++ pname ++ "-builder" }

/-- `get_all_builder_plugins` (generate-registry.py:12-37): directories
in sorted order, files per directory in sorted order. -/
def get_all_builder_plugins (dirs : List (String × List String)) :
    List RegPlugin :=
  (List.insertionSort dirLe dirs).flatMap processDir

/-- `generate_imports` (generate-registry.py:39-46). -/
def generate_imports (plugins : List RegPlugin) : List String :=
  plugins.map fun p =>
    "import \x7b " ++ p.var ++ " \x7d from \x27./" ++ p.path ++ ".js\x27"

/-- Python `str.upper` on the ASCII range. -/
def pyUpper (s : String) : String :=
  String.mk (s.data.map fun c =>
    if 'a'.toNat ≤ c.toNat && c.toNat ≤ 'z'.toNat then Char.ofNat (c.toNat - 32)
    else c)

/-- `generate_registry_array` (generate-registry.py:48-66): group by
category (first-appearance keys, insertion order inside a group),
then emit the groups in sorted category order, each introduced by an
upper-cased comment header and followed by a blank line. -/
def generate_registry_array (plugins : List RegPlugin) : List String :=
  let cats := (plugins.map RegPlugin.category).dedup
  (List.insertionSort strLe cats).flatMap fun c =>
    ("  // " ++ pyUpper c)
      :: ((plugins.filter fun p => p.category = c).map fun p => "  " ++ p.var ++ ",")
      ++ [""]

/-- The artifact-set-dependent parts of the aggregate registry file
(generate-registry.py:68-418): the generated import lines and the
grouped registry-array lines.  The rest of the emitted file is a
constant template, so the whole output is determined by this pair. -/
def assembleRegistry (dirs : List (String × List String)) :
    List String × List String :=
  let ps := get_all_builder_plugins dirs
  (generate_imports ps, generate_registry_array ps)

/-- A directory entry with its file list put into sorted order: two
filesystem enumerations of the same directory are the same up to this
normal form. -/
def canonFiles (d : String × List String) : String × List String :=
  (d.1, List.insertionSort strLe d.2)

/-- Two metadata records with distinct names that sanitize alike. -/
def collisionMetaA : Metadata :=
  { name := some "a-b", displayName := some "A dash B",
    description := some "d1", category := some "STATE", version := none,
    frameworks := ["react"], incompatibleWith := [], requires := [],
    recommends := [] }

/-- Second colliding record. -/
def collisionMetaB : Metadata :=
  { name := some "ab", displayName := some "AB", description := some "d2",
    category := some "STATE", version := none, frameworks := ["react"],
    incompatibleWith := [], requires := [], recommends := [] }

/-- A descriptor spelling all four list fields with explicit empty
brackets. -/
def emptyListsDemo : String :=
  "frameworks: []\nincompatibleWith: []\nrequires: []\nrecommends: []"

theorem lexLt_irrefl : ∀ l : List Char, lexLt l l = false
  | [] => rfl
  | a :: as => by simp [lexLt, lexLt_irrefl as]

theorem lexLt_trans :
    ∀ x y z : List Char,
      lexLt x y = true → lexLt y z = true → lexLt x z = true
  | [], [], _, h, _ => by simp [lexLt] at h
  | [], _ :: _, [], _, h => by simp [lexLt] at h
  | [], _ :: _, _ :: _, _, _ => by simp [lexLt]
  | _ :: _, [], _, h, _ => by simp [lexLt] at h
  | _ :: _, _ :: _, [], _, h => by simp [lexLt] at h
  | a :: as, b :: bs, c :: cs, h1, h2 => by
    simp only [lexLt] at h1 h2 ⊢
    by_cases hab : a.toNat < b.toNat
    · by_cases hbc : b.toNat < c.toNat
      · simp [show a.toNat < c.toNat by omega]
      · by_cases hcb : c.toNat < b.toNat
        · simp [hbc, hcb] at h2
        · simp [show a.toNat < c.toNat by omega]
    · by_cases hba : b.toNat < a.toNat
      · simp [hab, hba] at h1
      · simp [hab, hba] at h1
        by_cases hbc : b.toNat < c.toNat
        · simp [show a.toNat < c.toNat by omega]
        · by_cases hcb : c.toNat < b.toNat
          · simp [hbc, hcb] at h2
          · simp [hbc, hcb] at h2
            have hac : ¬ a.toNat < c.toNat := by omega
            have hca : ¬ c.toNat < a.toNat := by omega
            simp [hac, hca]
            exact lexLt_trans as bs cs h1 h2

theorem lexLt_connex :
    ∀ x y : List Char, lexLt x y = false → lexLt y x = false → x = y
  | [], [], _, _ => rfl
  | [], _ :: _, h, _ => by simp [lexLt] at h
  | _ :: _, [], _, h => by simp [lexLt] at h
  | a :: as, b :: bs, h1, h2 => by
    simp only [lexLt] at h1 h2
    by_cases hab : a.toNat < b.toNat
    · simp [hab] at h1
    · by_cases hba : b.toNat < a.toNat
      · simp [hba] at h2
      · simp [hab, hba] at h1 h2
        have hn : a.toNat = b.toNat := by omega
        have ha : a = b := Char.ext (UInt32.ext hn)
        rw [ha, lexLt_connex as bs h1 h2]

theorem lexLt_asymm (x y : List Char) (h : lexLt x y = true) :
    lexLt y x = false := by
  by_contra hc
  have hc' : lexLt y x = true := by
    cases hyx : lexLt y x
    · exact absurd hyx hc
    · rfl
  have := lexLt_trans x y x h hc'
  rw [lexLt_irrefl] at this
  exact Bool.false_ne_true this

theorem lexLe_total (x y : List Char) : lexLe x y = true ∨ lexLe y x = true := by
  unfold lexLe
  cases h : lexLt y x
  · left; rfl
  · right
    rw [lexLt_asymm y x h]
    rfl

theorem lexLe_trans (x y z : List Char) (h1 : lexLe x y = true)
    (h2 : lexLe y z = true) : lexLe x z = true := by
  unfold lexLe at *
  cases hzx : lexLt z x
  · rfl
  · exfalso
    cases hxy : lexLt x y
    · have hxy' := lexLt_connex x y hxy (by simpa using h1)
      subst hxy'
      simp [hzx] at h2
    · have := lexLt_trans z x y hzx hxy
      simp [this] at h2

theorem lexLe_antisymm (x y : List Char) (h1 : lexLe x y = true)
    (h2 : lexLe y x = true) : x = y :=
  lexLt_connex x y (by simpa [lexLe] using h2) (by simpa [lexLe] using h1)

/-- Sorting with `strLe` is a function of the multiset of elements. -/
theorem insertionSort_str_eq_of_perm {l₁ l₂ : List String} (h : l₁.Perm l₂) :
    List.insertionSort strLe l₁ = List.insertionSort strLe l₂ := by
  haveI : IsTotal String strLe := ⟨fun a b => lexLe_total a.data b.data⟩
  haveI : IsTrans String strLe := ⟨fun a b c => lexLe_trans a.data b.data c.data⟩
  haveI : IsAntisymm String strLe :=
    ⟨fun a b h1 h2 => String.ext (lexLe_antisymm a.data b.data h1 h2)⟩
  exact List.eq_of_perm_of_sorted
    ((List.perm_insertionSort strLe l₁).trans
      (h.trans (List.perm_insertionSort strLe l₂).symm))
    (List.sorted_insertionSort strLe l₁)
    (List.sorted_insertionSort strLe l₂)

/-- `processDir` only looks at the file set of a directory, not the
enumeration order: sorting the filtered files of an already-sorted list
gives the same result as sorting the filtered original. -/
theorem processDir_canon (d : String × List String) :
    processDir (canonFiles d) = processDir d := by
  unfold processDir canonFiles
  by_cases h : d.1 = "builder"
  · simp [h]
  · simp only [h, if_neg, ite_false]
    have hsort :
        List.insertionSort strLe
            ((List.insertionSort strLe d.2).filter fun f =>
              "-builder.ts".data.isSuffixOf f.data)
          = List.insertionSort strLe
              (d.2.filter fun f => "-builder.ts".data.isSuffixOf f.data) :=
      insertionSort_str_eq_of_perm
        ((List.perm_insertionSort strLe d.2).filter _)

    rw [hsort]

/-- `canonFiles` preserves the sort key, so sorting commutes with it:
the `orderedInsert` step. -/
theorem orderedInsert_map_canon (a : String × List String)
    (l : List (String × List String)) :
    List.orderedInsert dirLe (canonFiles a) (l.map canonFiles)
      = (List.orderedInsert dirLe a l).map canonFiles := by
  induction l with
  | nil => rfl
  | cons b t ih =>
    simp only [List.map, List.orderedInsert]
    by_cases h : dirLe a b
    · rw [if_pos (show dirLe (canonFiles a) (canonFiles b) from h), if_pos h]
      rfl
    · rw [if_neg (show ¬ dirLe (canonFiles a) (canonFiles b) from h), if_neg h]
      simp [ih]

/-- Sorting commutes with `canonFiles`. -/
theorem insertionSort_map_canon (l : List (String × List String)) :
    List.insertionSort dirLe (l.map canonFiles)
      = (List.insertionSort dirLe l).map canonFiles := by
  induction l with
  | nil => rfl
  | cons a t ih =>
    simp only [List.map, List.insertionSort, ih, orderedInsert_map_canon]

/-- Two `dirLe`-sorted directory lists that are permutations of each
other and have no duplicate directory names are equal. -/
theorem eq_of_perm_sorted_nodup :
    ∀ l₁ l₂ : List (String × List String),
      l₁.Perm l₂ → l₁.Pairwise dirLe → l₂.Pairwise dirLe →
      (l₁.map Prod.fst).Nodup → l₁ = l₂
  | [], l₂, hp, _, _, _ => hp.nil_eq
  | a :: t₁, l₂, hp, hs₁, hs₂, hn => by
    cases l₂ with
    | nil => exact hp.eq_nil
    | cons b t₂ =>
      rw [List.pairwise_cons] at hs₁ hs₂
      simp only [List.map, List.nodup_cons] at hn
      have hab : a = b := by
        by_contra hab
        have hbmem : b ∈ t₁ := by
          have hb : b ∈ a :: t₁ := hp.mem_iff.mpr (by simp)
          rcases List.mem_cons.mp hb with hb | hb
          · exact absurd hb.symm hab
          · exact hb
        have hamem : a ∈ t₂ := by
          have ha : a ∈ b :: t₂ := hp.mem_iff.mp (by simp)
          rcases List.mem_cons.mp ha with ha | ha
          · exact absurd ha hab
          · exact ha
        have hkey : a.1 = b.1 :=
          String.ext
            (lexLe_antisymm a.1.data b.1.data (hs₁.1 b hbmem) (hs₂.1 a hamem))
        exact hn.1 (hkey ▸ List.mem_map_of_mem Prod.fst hbmem)
      subst hab
      rw [eq_of_perm_sorted_nodup t₁ t₂ hp.cons_inv hs₁.2 hs₂.2 hn.2]

theorem takeWhile_append_all (p : Char → Bool) :
    ∀ x y : List Char, (∀ c ∈ x, p c = true) →
      (x ++ y).takeWhile p = x ++ y.takeWhile p
  | [], _, _ => rfl
  | c :: x', y, h => by
    have hc : p c = true := h c (by simp)
    simp only [List.cons_append, List.takeWhile_cons, hc, if_true]
    rw [takeWhile_append_all p x' y fun d hd => h d (by simp [hd])]

theorem dropWhile_append_all (p : Char → Bool) :
    ∀ x y : List Char, (∀ c ∈ x, p c = true) →
      (x ++ y).dropWhile p = y.dropWhile p
  | [], _, _ => rfl
  | c :: x', y, h => by
    have hc : p c = true := h c (by simp)
    simp only [List.cons_append, List.dropWhile_cons, hc, if_true]
    exact dropWhile_append_all p x' y fun d hd => h d (by simp [hd])

/-- The scalar pattern matches a literal `name: "…"` assignment whose
value is non-empty and quote-free, capturing exactly the value. -/
theorem matchScalarAt_assign (x s : List Char) (hx : x ≠ [])
    (hq : ∀ c ∈ x, isMetaQuote c = false) :
    matchScalarAt "name:".data ("name: \x22".data ++ (x ++ '\x22' :: s))
      = some x := by
  have hT : (x ++ '\x22' :: s).takeWhile (fun c => !(isMetaQuote c)) = x := by
    rw [takeWhile_append_all _ x ('\x22' :: s) fun c hc => by simp [hq c hc]]
    simp [List.takeWhile_cons, isMetaQuote]
  have hD : (x ++ '\x22' :: s).dropWhile (fun c => !(isMetaQuote c))
      = '\x22' :: s := by
    rw [dropWhile_append_all _ x ('\x22' :: s) fun c hc => by simp [hq c hc]]
    simp [List.dropWhile_cons, isMetaQuote]
  show (match (x ++ '\x22' :: s).dropWhile (fun c => !(isMetaQuote c)) with
        | [] => none
        | _ :: _ =>
          if ((x ++ '\x22' :: s).takeWhile fun c => !(isMetaQuote c)).isEmpty
          then none
          else some ((x ++ '\x22' :: s).takeWhile fun c => !(isMetaQuote c)))
      = some x
  rw [hT, hD]
  simp [List.isEmpty_iff, hx]

/-- `re.search` skips a prefix in which the pattern matches nowhere. -/
theorem searchScalar_skip (key : List Char) :
    ∀ p rest : List Char,
      (∀ i, i < p.length → matchScalarAt key ((p ++ rest).drop i) = none) →
      searchScalar key (p ++ rest) = searchScalar key rest
  | [], _, _ => rfl
  | c :: p', rest, h => by
    rw [List.cons_append, searchScalar]
    have h0 := h 0 (by simp)
    rw [List.drop_zero, List.cons_append] at h0
    rw [h0]
    exact searchScalar_skip key p' rest fun i hi => by
      have hi1 := h (i + 1) (by simpa using Nat.succ_lt_succ hi)
      rwa [List.cons_append, List.drop_succ_cons] at hi1

/-- The `frameworks` bracket pattern `\[([^\]]+)\]` captures at least
one character. -/
theorem matchBracketAt_plus_ne_nil (key l span : List Char)
    (h : matchBracketAt key false l = some span) : span ≠ [] := by
  unfold matchBracketAt at h
  cases hd : dropLit key l with
  | none => rw [hd] at h; simp at h
  | some r1 =>
    rw [hd] at h
    simp only [] at h
    cases hw : r1.dropWhile isPySpace with
    | nil => rw [hw] at h; simp at h
    | cons c r2 =>
      rw [hw] at h
      simp only [] at h
      by_cases hc : c = '['
      · rw [if_pos hc] at h
        simp only [Bool.not_false, Bool.true_and] at h
        cases hdw : r2.dropWhile (fun d => !(d = ']')) with
        | nil => rw [hdw] at h; simp at h
        | cons d r3 =>
          rw [hdw] at h
          simp only [] at h
          by_cases hv : ((r2.takeWhile fun d => !(d = ']')).isEmpty) = true
          · rw [if_pos hv] at h; simp at h
          · rw [if_neg hv] at h
            have hvs := Option.some_inj.mp h
            subst hvs
            simpa [List.isEmpty_iff] using hv
      · rw [if_neg hc] at h; simp at h

theorem searchBracket_plus_ne_nil (key : List Char) :
    ∀ content span, searchBracket key false content = some span → span ≠ []
  | [], span, h => by rw [searchBracket] at h; exact absurd h (by simp)
  | c :: rest, span, h => by
    rw [searchBracket] at h
    cases hm : matchBracketAt key false (c :: rest) with
    | some v =>
      rw [hm] at h
      exact Option.some_inj.mp h ▸ matchBracketAt_plus_ne_nil key _ v hm
    | none =>
      rw [hm] at h
      exact searchBracket_plus_ne_nil key rest span h

-- scratch checks (to be removed)

/-- A `re.search` whose pattern matches at the current position returns
that match. -/
theorem searchScalar_head_match (key l v : List Char)
    (hm : matchScalarAt key l = some v) (hne : l ≠ []) :
    searchScalar key l = some v := by
  cases l with
  | nil => exact absurd rfl hne
  | cons c rest => rw [searchScalar, hm]

/-- `validatePlugin` accepts exactly the entries with the six required
fields present, a category from the closed enumeration, a non-empty
frameworks array, and function-valued `install` and `configure`;
`detect` is never inspected. -/
theorem validatePlugin_eq_true_iff (categories : List String) (p : PluginEntry) :
    validatePlugin categories p = true ↔
      p.name.isSome = true ∧ p.displayName.isSome = true
        ∧ p.description.isSome = true
        ∧ (∃ c, p.category = some c ∧ c ∈ categories)
        ∧ (∃ f fs, p.frameworks = some (f :: fs))
        ∧ p.install = some JsVal.func ∧ p.configure = some JsVal.func := by
  rcases p with ⟨n, dn, d, c, fw, det, ins, conf⟩
  unfold validatePlugin
  simp only [Bool.and_eq_true, beq_iff_eq]
  cases c with
  | none => simp
  | some cv =>
    cases fw with
    | none => simp
    | some l =>
      cases l with
      | nil => simp
      | cons f fs =>
        cases ins with
        | none => simp
        | some iv =>
          cases conf with
          | none => simp
          | some cv2 =>
            cases iv <;> cases cv2 <;>
              (simp [List.elem_iff]; try tauto)

/-- `validateRegistry` partitions the entries into the valid ones and
the names of the invalid ones, in order. -/
theorem validateRegistry_eq (categories : List String) (ps : List PluginEntry) :
    validateRegistry categories ps
      = (ps.filter (validatePlugin categories),
         (ps.filter fun q => !(validatePlugin categories q)).map PluginEntry.name) := by
  induction ps with
  | nil => rfl
  | cons q t ih =>
    simp only [validateRegistry, ih]
    by_cases hq : validatePlugin categories q = true
    · simp [hq]
    · have hq' : validatePlugin categories q = false := by
        cases hb : validatePlugin categories q
        · rfl
        · exact absurd hb hq
      simp [List.filter_cons, hq']

/-- C1 counterexample: the descriptor text `rename: "y", name: "x"`
contains the assignment `name: "x"`, yet the Metadata Extractor returns
`name = "y"`: the pattern `name:\s*['\"]([^'\"]+)['\"]` has no word
boundary, so the leftmost match of `re.search` sits inside the key
`rename:`, whose spelling contains `name`. -/
theorem c1_counterexample :
    (extract_plugin_metadata "rename: \x22y\x22, name: \x22x\x22").name
        = some "y"
      ∧ some ("y" : String) ≠ some "x" := by
  exact ⟨by decide, by decide⟩

/-- C1 (amended): for descriptor text containing the assignment
`name: "x"` with a non-empty quote-free value, the Metadata Extractor
returns `name = "x"` provided the scalar pattern matches at no earlier
position of the text (in particular, no key whose spelling ends in
`name:` — such as `rename:` — and no other occurrence of `name:`
precedes the assignment). -/
theorem c1_name_first_match (p x s : List Char)
    (hp : ∀ i, i < p.length →
      matchScalarAt "name:".data
        ((p ++ ("name: \x22".data ++ (x ++ '\x22' :: s))).drop i) = none)
    (hx : x ≠ []) (hq : ∀ c ∈ x, isMetaQuote c = false) :
    (extract_plugin_metadata
        (String.mk (p ++ ("name: \x22".data ++ (x ++ '\x22' :: s))))).name
      = some (String.mk x) := by
  have hsearch :
      searchScalar "name:".data (p ++ ("name: \x22".data ++ (x ++ '\x22' :: s)))
        = some x := by
    rw [searchScalar_skip "name:".data p _ hp]
    exact searchScalar_head_match "name:".data _ x
      (matchScalarAt_assign x s hx hq) (by simp)
  show (searchScalar "name:".data
      (p ++ ("name: \x22".data ++ (x ++ '\x22' :: s)))).map String.mk
    = some (String.mk x)
  rw [hsearch]
  rfl

/-- C1 witness: with an empty prefix, `name: "x"` extracts to `x`. -/
theorem c1_name_first_match_witness :
    (extract_plugin_metadata
        (String.mk ([] ++ ("name: \x22".data ++ ("x".data ++ '\x22' :: []))))).name
      = some (String.mk "x".data) :=
  c1_name_first_match [] "x".data []
    (fun i hi => absurd hi (by simp)) (by decide) (by decide)

/-- C2 counterexample: on the input `install() { const s = "}"; return 1 }`
of the claim, the Delimiter-Balanced Extractor returns `None`, not the
full body: its anchor pattern requires the signature shape
`async install(...): Promise<...> {`, which this input lacks. -/
theorem c2_counterexample :
    extract_function "install() \x7b const s = \x22\x7d\x22; return 1 \x7d"
      "install" = none := by decide

/-- C2 (amended): on an input whose `install` callback carries the
anchored signature shape `async install(...): Promise<...> {`, a `}`
inside a quoted span is not counted as a closer: extraction returns the
whole function text (signature through the true closing brace),
including the literal `}` inside the string, rather than the prefix
that terminates at the quoted closer. -/
theorem c2_quoted_delimiter_ignored :
    extract_function
        "async install(): Promise<InstallResult> \x7b const s = \x22\x7d\x22; return 1 \x7d"
        "install"
      = some
        "async install(): Promise<InstallResult> \x7b const s = \x22\x7d\x22; return 1 \x7d"
    ∧ extract_function
        "async install(): Promise<InstallResult> \x7b const s = \x22\x7d\x22; return 1 \x7d"
        "install"
      ≠ some "async install(): Promise<InstallResult> \x7b const s = \x22\x7d" := by
  exact ⟨by decide, by decide⟩

/-- C3 counterexample: for text containing the balanced region
`{ return 1 }` after the anchor, the Delimiter-Balanced Extractor does
not return exactly the balanced region: it returns the substring from
the anchor's start, signature included; and the claim's own example
`detect(ctx) { return 1 }` (no `async`/`Promise` signature) yields
`None`. -/
theorem c3_counterexample :
    extract_function "async detect(ctx): Promise<number> \x7b return 1 \x7d"
        "detect"
      = some "async detect(ctx): Promise<number> \x7b return 1 \x7d"
    ∧ some "async detect(ctx): Promise<number> \x7b return 1 \x7d"
      ≠ some "\x7b return 1 \x7d"
    ∧ extract_function "detect(ctx) \x7b return 1 \x7d" "detect" = none := by
  exact ⟨by decide, by decide, by decide⟩

/-- C3 (amended): when the anchor (an `async …(): Promise<…> {`-shaped
signature) is present and the region balances, the extractor returns
the substring from the anchor's start through the matching closer
(signature included); when the anchor is absent, or an opening
delimiter is never balanced before end-of-input, it returns `None`
rather than raising or returning a partial span. -/
theorem c3_balanced_region_or_none (content fname : String)
    (h : searchAnchorIdx fname.data content.data 0 = none) :
    extract_function content fname = none
    ∧ extract_function "async detect(ctx): Promise<number> \x7b return 1 \x7d"
        "detect"
      = some "async detect(ctx): Promise<number> \x7b return 1 \x7d"
    ∧ extract_function "async detect(): Promise<void> \x7b const x = \x7b"
        "detect" = none := by
  refine ⟨?_, by decide, by decide⟩
  unfold extract_function
  rw [h]

/-- C3 witness: a text without the anchor yields `None`. -/
theorem c3_balanced_region_or_none_witness :
    extract_function "const x = 1" "detect" = none
    ∧ extract_function "async detect(ctx): Promise<number> \x7b return 1 \x7d"
        "detect"
      = some "async detect(ctx): Promise<number> \x7b return 1 \x7d"
    ∧ extract_function "async detect(): Promise<void> \x7b const x = \x7b"
        "detect" = none :=
  c3_balanced_region_or_none "const x = 1" "detect" (by decide)

/-- C4 counterexample: in
`async detect(): Promise<void> { \} }` the backslash occurs outside any
quoted span, yet it does suppress the `}` that follows: the scan keeps
going and the extractor returns the text through the second `}`, not
the prefix terminating at the first. -/
theorem c4_counterexample :
    extract_function "async detect(): Promise<void> \x7b \\\x7d \x7d" "detect"
      = some "async detect(): Promise<void> \x7b \\\x7d \x7d"
    ∧ extract_function "async detect(): Promise<void> \x7b \\\x7d \x7d" "detect"
      ≠ some "async detect(): Promise<void> \x7b \\\x7d" := by
  exact ⟨by decide, by decide⟩

/-- C4 (amended): the scanner's escape flag is set whenever a backslash
is read — inside or outside a quoted span — and is cleared after
consuming the next character: in every state with the escape flag
clear, a backslash makes the scan skip the following character
unconditionally, whatever the quoting state `inString` is. -/
theorem c4_escape_any_context (c : Char) (rest : List Char)
    (braceCount pos : Nat) (inString : Bool) :
    scanBody ('\\' :: c :: rest) braceCount inString false pos
      = scanBody rest braceCount inString false (pos + 1 + 1) := by
  simp [scanBody]

/-- C5 counterexample: identifier derivation is not injective — the
distinct names `a-b` and `ab` sanitize to the same identifier. -/
theorem c5_counterexample :
    plugin_var_name "a-b" = plugin_var_name "ab"
      ∧ ("a-b" : String) ≠ "ab" := by
  exact ⟨by decide, by decide⟩

/-- C5 (amended): identifier derivation (strip `@`, `/`, `-`, append
`Plugin`) is not injective, and the Builder Synthesizer performs no
collision detection: on two records with distinct names that sanitize
to the same identifier it succeeds on both, emitting the same
`export const abPlugin = createPlugin()` declaration in each artifact,
so one output shadows the other rather than being flagged as an
integrity error. -/
theorem c5_collision_not_detected :
    collisionMetaA.name ≠ collisionMetaB.name
    ∧ plugin_var_name "a-b" = "abPlugin"
    ∧ plugin_var_name "ab" = "abPlugin"
    ∧ (generate_builder_code_simple collisionMetaA).isSome = true
    ∧ (generate_builder_code_simple collisionMetaB).isSome = true
    ∧ "export const abPlugin = createPlugin()".data <:+:
        ((generate_builder_code_simple collisionMetaA).getD "").data
    ∧ "export const abPlugin = createPlugin()".data <:+:
        ((generate_builder_code_simple collisionMetaB).getD "").data := by
  refine ⟨by decide, by decide, by decide, by decide, by decide, by decide,
    by decide⟩

/-- C6 counterexample: an entry with no `detect` at all — so the
`detect` callback role is certainly not present as a callable
construction step — is accepted by the load-time validator: neither the
required-field loop nor the `typeof` checks inspect `detect`. -/
theorem c6_counterexample :
    validatePlugin ["STATE", "ROUTING"]
        { name := some "widget", displayName := some "Widget",
          description := some "d", category := some "STATE",
          frameworks := some ["react"], detect := none,
          install := some JsVal.func, configure := some JsVal.func } = true
    ∧ ({ name := some "widget", displayName := some "Widget",
          description := some "d", category := some "STATE",
          frameworks := some ["react"], detect := none,
          install := some JsVal.func, configure := some JsVal.func } :
          PluginEntry).detect = none := by
  exact ⟨by decide, by decide⟩

/-- C6 (amended): the load-time validator keeps an entry in the
queryable set iff `name`, `displayName`, `description` and `category`
are present, the category belongs to the closed enumeration, the
`frameworks` value is a non-empty array, and `install` and `configure`
are present as callable construction steps — `detect` is not required;
a rejected entry is excluded from the queryable set and its `name` is
recorded in the diagnostics list, while all other entries remain
queryable. -/
theorem c6_validator_characterization (categories : List String)
    (ps : List PluginEntry) (p : PluginEntry) :
    (validatePlugin categories p = true ↔
      p.name.isSome = true ∧ p.displayName.isSome = true
        ∧ p.description.isSome = true
        ∧ (∃ c, p.category = some c ∧ c ∈ categories)
        ∧ (∃ f fs, p.frameworks = some (f :: fs))
        ∧ p.install = some JsVal.func ∧ p.configure = some JsVal.func)
    ∧ (validateRegistry categories ps).1 = ps.filter (validatePlugin categories)
    ∧ (validateRegistry categories ps).2
      = (ps.filter fun q => !(validatePlugin categories q)).map
          PluginEntry.name := by
  refine ⟨validatePlugin_eq_true_iff categories p, ?_, ?_⟩
  · rw [validateRegistry_eq]
  · rw [validateRegistry_eq]

/-- C7 counterexample: in the migrate-plugins.py batch, an artifact
whose text yields no `name` aborts the whole run — the uncaught
`AttributeError` escapes the loop, so the later artifact `second` is
never processed, contrary to the claim that the batch continues. -/
theorem c7_counterexample :
    migrateGenerate
        [("first", "description: \x22a plugin\x22"), ("second", "name: \x22good\x22")]
      = Except.error
          "AttributeError: \x27NoneType\x27 object has no attribute \x27replace\x27" :=
  rfl

/-- C7 (amended): in the generate-builders-final.py batch, an artifact
whose source text yields no `name` is an extraction failure local to
that artifact: it is recorded in the failure list with the
human-readable reason `Could not extract plugin name`, and every
artifact of the batch is accounted for (generated plus failed equals
total), so the batch continues past failures; in migrate-plugins.py,
by contrast, the same condition raises an uncaught exception that
aborts the run. -/
theorem c7_final_batch_continues (arts : List (String × String)) :
    (finalGenerate arts).2
      = (arts.filter fun a => ((extract_plugin_metadata a.2).name).isNone).map
          (fun a => (a.1, "Could not extract plugin name"))
    ∧ (finalGenerate arts).1 + (finalGenerate arts).2.length = arts.length := by
  induction arts with
  | nil => exact ⟨rfl, rfl⟩
  | cons a t ih =>
    obtain ⟨ih1, ih2⟩ := ih
    rcases a with ⟨pname, content⟩
    constructor
    · show (finalGenerate ((pname, content) :: t)).2 = _
      rw [show finalGenerate ((pname, content) :: t)
          = (match (extract_plugin_metadata content).name with
             | none => ((finalGenerate t).1,
                 (pname, "Could not extract plugin name") :: (finalGenerate t).2)
             | some _ => ((finalGenerate t).1 + 1, (finalGenerate t).2)) from rfl]
      cases hname : (extract_plugin_metadata content).name with
      | none => simp [List.filter_cons, hname, ih1]
      | some v => simp [List.filter_cons, hname, ih1]
    · show (finalGenerate ((pname, content) :: t)).1
          + (finalGenerate ((pname, content) :: t)).2.length = t.length + 1
      rw [show finalGenerate ((pname, content) :: t)
          = (match (extract_plugin_metadata content).name with
             | none => ((finalGenerate t).1,
                 (pname, "Could not extract plugin name") :: (finalGenerate t).2)
             | some _ => ((finalGenerate t).1 + 1, (finalGenerate t).2)) from rfl]
      cases hname : (extract_plugin_metadata content).name with
      | none =>
        show (finalGenerate t).1
            + ((pname, "Could not extract plugin name")
                :: (finalGenerate t).2).length
          = t.length + 1
        rw [List.length_cons]
        omega
      | some v =>
        show (finalGenerate t).1 + 1 + (finalGenerate t).2.length
          = t.length + 1
        omega

/-- C8: the Builder Synthesizer is deterministic — it is a pure
function of the metadata record (the callback bodies of this
synthesizer are always the synthesized defaults), so two runs on
identical input produce byte-identical builder text. -/
theorem c8_synthesizer_deterministic (m₁ m₂ : Metadata) (h : m₁ = m₂) :
    generate_builder_code_simple m₁ = generate_builder_code_simple m₂ := by
  rw [h]

/-- C8 witness: two runs on the same concrete record agree. -/
theorem c8_synthesizer_deterministic_witness :
    generate_builder_code_simple
        { name := some "widget", displayName := some "Widget",
          description := some "d", category := some "STATE", version := none,
          frameworks := ["react"], incompatibleWith := [], requires := [],
          recommends := [] }
      = generate_builder_code_simple
        { name := some "widget", displayName := some "Widget",
          description := some "d", category := some "STATE", version := none,
          frameworks := ["react"], incompatibleWith := [], requires := [],
          recommends := [] } :=
  c8_synthesizer_deterministic _ _ rfl

/-- C9: the Registry Assembler is deterministic over the artifact set:
for two filesystem enumerations that present the same directories (no
duplicate directory names) with the same file sets, in any order, the
emitted imports and grouped registry lines coincide, and the category
grouping order actually used is sorted (lexicographic). -/
theorem c9_assembler_deterministic (dirs1 dirs2 : List (String × List String))
    (hperm : (dirs1.map canonFiles).Perm (dirs2.map canonFiles))
    (hnodup : (dirs1.map Prod.fst).Nodup) :
    assembleRegistry dirs1 = assembleRegistry dirs2
    ∧ List.Sorted strLe (List.insertionSort strLe
        ((get_all_builder_plugins dirs1).map RegPlugin.category).dedup) := by
  haveI : IsTotal (String × List String) dirLe :=
    ⟨fun a b => lexLe_total a.1.data b.1.data⟩
  haveI : IsTrans (String × List String) dirLe :=
    ⟨fun a b c => lexLe_trans a.1.data b.1.data c.1.data⟩
  haveI : IsTotal String strLe := ⟨fun a b => lexLe_total a.data b.data⟩
  haveI : IsTrans String strLe := ⟨fun a b c => lexLe_trans a.data b.data c.data⟩
  have hfst : ∀ l : List (String × List String),
      (l.map canonFiles).map Prod.fst = l.map Prod.fst := by
    intro l
    rw [List.map_map]
    rfl
  have hsorteq : List.insertionSort dirLe (dirs1.map canonFiles)
      = List.insertionSort dirLe (dirs2.map canonFiles) := by
    apply eq_of_perm_sorted_nodup
    · exact (List.perm_insertionSort dirLe _).trans
        (hperm.trans (List.perm_insertionSort dirLe _).symm)
    · exact List.sorted_insertionSort dirLe _
    · exact List.sorted_insertionSort dirLe _
    · have h1 : ((List.insertionSort dirLe (dirs1.map canonFiles)).map
          Prod.fst).Perm (dirs1.map Prod.fst) := by
        have := (List.perm_insertionSort dirLe (dirs1.map canonFiles)).map
          Prod.fst
        rwa [hfst] at this
      exact h1.nodup_iff.mpr hnodup
  have e : ∀ dirs : List (String × List String),
      (List.insertionSort dirLe dirs).flatMap processDir
        = (List.insertionSort dirLe (dirs.map canonFiles)).flatMap
            processDir := by
    intro dirs
    rw [insertionSort_map_canon, List.flatMap_map]
    congr 1
    funext d
    exact (processDir_canon d).symm
  have hga : get_all_builder_plugins dirs1 = get_all_builder_plugins dirs2 := by
    unfold get_all_builder_plugins
    rw [e dirs1, e dirs2, hsorteq]
  constructor
  · unfold assembleRegistry
    rw [hga]
  · exact List.sorted_insertionSort strLe _

/-- C9 witness: two enumerations of the same two directories, with
directories and files listed in different orders, assemble to the same
registry. -/
theorem c9_assembler_deterministic_witness :
    assembleRegistry [("state", ["b-builder.ts", "a-builder.ts"]),
        ("css", ["t-builder.ts"])]
      = assembleRegistry [("css", ["t-builder.ts"]),
          ("state", ["a-builder.ts", "b-builder.ts"])]
    ∧ List.Sorted strLe (List.insertionSort strLe
        ((get_all_builder_plugins [("state", ["b-builder.ts", "a-builder.ts"]),
          ("css", ["t-builder.ts"])]).map RegPlugin.category).dedup) :=
  c9_assembler_deterministic
    [("state", ["b-builder.ts", "a-builder.ts"]), ("css", ["t-builder.ts"])]
    [("css", ["t-builder.ts"]), ("state", ["a-builder.ts", "b-builder.ts"])]
    (by decide) (by decide)

/-- C10: the Metadata Extractor is total (a Lean function) and returns
a record with every metadata key; each scalar field is the leftmost
pattern match or unset, each list field a possibly-empty list.  Any
span the `frameworks` pattern captures is non-empty (its bracket class
is `+`), so an explicit `frameworks: []` leaves the pattern unmatched
and the field `[]`, while `incompatibleWith: []` (and `requires`,
`recommends`) match the empty brackets with an empty capture. -/
theorem c10_extractor_fields (content span : List Char)
    (h : searchBracket "frameworks:".data false content = some span) :
    span ≠ []
    ∧ extract_plugin_metadata emptyListsDemo
      = { name := none, displayName := none, description := none,
          category := none, version := none, frameworks := [],
          incompatibleWith := [], requires := [], recommends := [] }
    ∧ searchBracket "frameworks:".data false emptyListsDemo.data = none
    ∧ searchBracket "incompatibleWith:".data true emptyListsDemo.data
      = some [] :=
  ⟨searchBracket_plus_ne_nil "frameworks:".data content span h,
    by decide, by decide, by decide⟩

/-- C10 witness: a non-empty frameworks list is captured, and the
captured span is non-empty. -/
theorem c10_extractor_fields_witness :
    "\x27react\x27".data ≠ []
    ∧ extract_plugin_metadata emptyListsDemo
      = { name := none, displayName := none, description := none,
          category := none, version := none, frameworks := [],
          incompatibleWith := [], requires := [], recommends := [] }
    ∧ searchBracket "frameworks:".data false emptyListsDemo.data = none
    ∧ searchBracket "incompatibleWith:".data true emptyListsDemo.data
      = some [] :=
  c10_extractor_fields "frameworks: [\x27react\x27]".data "\x27react\x27".data
    (by decide)
